import Mathlib

/-!
Shallow embedding of the query-splitting and result-ranking logic of
`packages/file-search/src/browser/quick-file-open.ts` (class
`QuickFileOpenService`), together with theorems settling the spec claims.

The two embedded operations are `splitFilterAndRange` and `compareItems`
(with its inner `score` and `normalize` helpers).  The external fuzzy
matching primitive (`fuzzy.match` from the npm `fuzzy` package) is opaque
per the spec and is modelled as a function parameter.  JavaScript strings
are modelled as Lean `String`s, and `localeCompare` as code-point
comparison (the spec reads it as plain string comparison).
-/

namespace QuickFileOpen

/-- Characters matched by the JavaScript regular-expression class backslash-s
(ASCII whitespace plus the Unicode space characters JavaScript includes). -/
def isSpaceJS (c : Char) : Bool :=
  c = ' ' || c = '\t' || c = '\n' || c = '\r' || c = '\x0b' || c = '\x0c' ||
  c = '\u00a0' || c = '\u1680' || ('\u2000' ≤ c && c ≤ '\u200a') ||
  c = '\u2028' || c = '\u2029' || c = '\u202f' || c = '\u205f' ||
  c = '\u3000' || c = '\ufeff'

/-- Characters matched by the JavaScript regular-expression class backslash-d. -/
def isDigitJS (c : Char) : Bool :=
  '0' ≤ c && c ≤ '9'

/-!
The source constant
`LINE_COLON_PATTERN = /\s?[#:\(](?:line )?(\d*)(?:[#:,](\d*))?\)?\s*$/`
is a fixed regular expression, embedded below as a hand-rolled backtracking
matcher with the same preference order as the JavaScript engine: each
`tailN` function matches the rest of the pattern (anchored at end of
string, for the `$`) against a list of characters.  Greedy `\d*` never
needs to give characters back, because no character that can follow it in
the pattern is a digit.
-/

/-- Matches the pattern tail `\s*$`: every remaining character is whitespace. -/
def tail4 (cs : List Char) : Bool :=
  cs.all isSpaceJS

/-- Matches the pattern tail `\)?\s*$`, preferring to consume a `)`. -/
def tail3 (cs : List Char) : Bool :=
  (match cs with
   | ')' :: rest => tail4 rest
   | _ => false) ||
  tail4 cs

/-- Matches the pattern tail `(?:[#:,](\d*))?\)?\s*$`; returns the second
capture group (`none` when the optional group does not participate, as with
JavaScript `undefined`). -/
def tail2 (cs : List Char) : Option (Option String) :=
  (match cs with
   | c :: rest =>
     if c = '#' || c = ':' || c = ',' then
       if tail3 (rest.dropWhile isDigitJS) then
         some (some (String.mk (rest.takeWhile isDigitJS)))
       else none
     else none
   | [] => none)
  <|>
  (if tail3 cs then some none else none)

/-- Matches the pattern tail `(\d*)(?:[#:,](\d*))?\)?\s*$`; returns the two
capture groups. -/
def tail1 (cs : List Char) : Option (String × Option String) :=
  (tail2 (cs.dropWhile isDigitJS)).map
    (fun g2 => (String.mk (cs.takeWhile isDigitJS), g2))

/-- Matches the pattern tail `(?:line )?(\d*)(?:[#:,](\d*))?\)?\s*$`,
preferring to consume the literal `line `. -/
def tailLine (cs : List Char) : Option (String × Option String) :=
  (match cs with
   | 'l' :: 'i' :: 'n' :: 'e' :: ' ' :: rest => tail1 rest
   | _ => none)
  <|>
  tail1 cs

/-- Matches the pattern tail `[#:\(](?:line )?(\d*)(?:[#:,](\d*))?\)?\s*$`. -/
def afterMark (cs : List Char) : Option (String × Option String) :=
  match cs with
  | c :: rest => if c = '#' || c = ':' || c = '(' then tailLine rest else none
  | [] => none

/-- Matches the full pattern `\s?[#:\(](?:line )?(\d*)(?:[#:,](\d*))?\)?\s*$`
at the current position, preferring to consume a leading whitespace. -/
def matchFrom (cs : List Char) : Option (String × Option String) :=
  (match cs with
   | c :: rest => if isSpaceJS c then afterMark rest else none
   | [] => none)
  <|>
  afterMark cs

/-- Scans left to right for the first start index where the pattern matches,
exactly as `RegExp.prototype.exec` does; returns the match index and the two
capture groups. -/
def execAux : Nat → List Char → Option (Nat × String × Option String)
  | i, [] => (matchFrom []).map (fun g => (i, g.1, g.2))
  | i, c :: rest =>
    match matchFrom (c :: rest) with
    | some g => some (i, g.1, g.2)
    | none => execAux (i + 1) rest

/-- Embeds `LINE_COLON_PATTERN.exec(expression)`. -/
def execPattern (s : String) : Option (Nat × String × Option String) :=
  execAux 0 s.toList

/-- Embeds the editor `Position` value (0-based line and character). -/
structure Position where
  line : Nat
  character : Nat
deriving DecidableEq, Repr

/-- Embeds the editor `Range` value; the source field named `end` is `stop`
here because `end` is a Lean keyword. -/
structure Range where
  start : Position
  stop : Position
deriving DecidableEq, Repr

/-- Embeds the `FilterAndRange` interface of the source. -/
structure FilterAndRange where
  filter : String
  range : Option Range
deriving DecidableEq, Repr

/-- Numeric value of a string of decimal digits. -/
def digitsToNat (cs : List Char) : Nat :=
  cs.foldl (fun n c => n * 10 + (c.toNat - 48)) 0

/-- Embeds `parseInt(s, 10)` followed by the `Number.isFinite` test, on the
strings this source feeds it: a `\d*` capture (only decimal digits, possibly
empty) or the empty string substituted for an absent capture.  `parseInt`
yields `NaN` exactly when the string is empty, and a finite number (its
decimal value) otherwise. -/
def parseIntDec (s : String) : Option Nat :=
  if s.isEmpty then none else some (digitsToNat s.toList)

/-- Embeds `QuickFileOpenService.splitFilterAndRange`. -/
def splitFilterAndRange (expression : String) : FilterAndRange :=
  match execPattern expression with
  | none => { filter := expression, range := none }
  | some (idx, g1, g2) =>
    match parseIntDec g1 with
    | none => { filter := expression, range := none }
    | some line =>
      let lineNumber := if line > 0 then line - 1 else 0
      let startColumn :=
        match parseIntDec (g2.getD "") with
        | some column => if column > 0 then column - 1 else 0
        | none => 0
      let position : Position := { line := lineNumber, character := startColumn }
      { filter := String.mk (expression.toList.take idx),
        range := some { start := position, stop := position } }

example : splitFilterAndRange "foo.ts" = { filter := "foo.ts", range := none } := by decide

example : splitFilterAndRange "foo.ts:42" =
    { filter := "foo.ts", range := some { start := ⟨41, 0⟩, stop := ⟨41, 0⟩ } } := by decide

example : splitFilterAndRange "foo.ts:42:7" =
    { filter := "foo.ts", range := some { start := ⟨41, 6⟩, stop := ⟨41, 6⟩ } } := by decide

example : splitFilterAndRange "foo.ts:42,7" =
    { filter := "foo.ts", range := some { start := ⟨41, 6⟩, stop := ⟨41, 6⟩ } } := by decide

example : splitFilterAndRange "foo.ts#" = { filter := "foo.ts#", range := none } := by decide

example : splitFilterAndRange "foo(line 12,3)" =
    { filter := "foo", range := some { start := ⟨11, 2⟩, stop := ⟨11, 2⟩ } } := by decide

/-!
Embedding of `QuickFileOpenService.compareItems` and its inner helpers.
-/

/-- Embeds JavaScript `str.trim()`: removes leading and trailing
whitespace (the same character class as the regular-expression `\s`). -/
def trimJS (str : String) : String :=
  String.mk (((str.toList.dropWhile isSpaceJS).reverse.dropWhile isSpaceJS).reverse)

/-- Embeds JavaScript `str.toLowerCase()`, character by character. -/
def toLowerJS (str : String) : String :=
  String.mk (str.toList.map Char.toLower)

/-- Embeds the `normalize` helper of `compareItems`: `str.trim().toLowerCase()`. -/
def normalize (str : String) : String :=
  toLowerJS (trimJS str)

/-- Decides whether `sub` occurs at the start of `cs` (JavaScript
`String.prototype.startsWith` on character lists). -/
def listStartsWith : List Char → List Char → Bool
  | _, [] => true
  | [], _ :: _ => false
  | c :: cs, s :: ss => c == s && listStartsWith cs ss

/-- Decides whether `sub` occurs somewhere inside `cs`. -/
def containsSub : List Char → List Char → Bool
  | [], sub => listStartsWith [] sub
  | c :: rest, sub => listStartsWith (c :: rest) sub || containsSub rest sub

/-- Embeds JavaScript `str.includes(part)`. -/
def includesStr (str part : String) : Bool :=
  containsSub str.toList part.toList

/-- Index of the first occurrence of `sub` in the remaining characters,
counting from `i`. -/
def indexOfAux : List Char → List Char → Nat → Option Nat
  | [], sub, i => if listStartsWith [] sub then some i else none
  | c :: rest, sub, i =>
    if listStartsWith (c :: rest) sub then some i else indexOfAux rest sub (i + 1)

/-- Embeds JavaScript `str.indexOf(sub)`: the first occurrence index, or `-1`
when `sub` does not occur in `str`. -/
def indexOfStr (str sub : String) : Int :=
  match indexOfAux str.toList sub.toList 0 with
  | some i => (i : Int)
  | none => -1

/-- Code-point comparison of character lists. -/
def cmpChars : List Char → List Char → Ordering
  | [], [] => .eq
  | [], _ :: _ => .lt
  | _ :: _, [] => .gt
  | a :: as, b :: bs =>
    if a.toNat < b.toNat then .lt
    else if b.toNat < a.toNat then .gt
    else cmpChars as bs

/-- Embeds JavaScript `a.localeCompare(b)`, modelled as plain code-point
string comparison returning a sign. -/
def localeCompare (a b : String) : Int :=
  match cmpChars a.toList b.toList with
  | .lt => -1
  | .eq => 0
  | .gt => 1

/-- Modelled from the spec: the constant `WHITESPACE_QUERY_SEPARATOR` is
imported from `../common/file-search-service`, which is not part of this
source tree; the spec describes its use as splitting the normalized filter
on whitespace.  This function embeds JavaScript
`query.split(WHITESPACE_QUERY_SEPARATOR)` for a whitespace regular
expression of shape `\s+`: maximal whitespace runs separate the fields, a
run at either end contributes an empty field there, and the empty string
yields the single-element list containing the empty string. -/
def splitWhitespace (s : String) : List String :=
  let step : (List String × List Char × Bool) → Char → (List String × List Char × Bool) :=
    fun st c =>
      if isSpaceJS c then
        if st.2.2 then st else (String.mk st.2.1.reverse :: st.1, [], true)
      else
        (st.1, c :: st.2.1, false)
  let fin := s.toList.foldl step ([], [], false)
  (String.mk fin.2.1.reverse :: fin.1).reverse

/-- Result of the opaque external fuzzy-matching primitive on a match: either
the distinguished perfect score (`Infinity` in the source) or a finite
numeric score. -/
inductive FuzzyScore where
  | inf : FuzzyScore
  | val : Int → FuzzyScore
deriving DecidableEq, Repr

/-- Type of the opaque external fuzzy-matching primitive `fuzzy.match`:
`none` models the `null` no-match result. -/
def FuzzyMatcher : Type :=
  String → String → Option FuzzyScore

/-- Embeds the score constants `QuickFileOpenService.Scores.max`,
`.exact` and `.partial` (the last renamed to `scorePartialBonus`). -/
def scoreMax : Int := 1000

/-- Embeds `QuickFileOpenService.Scores.exact`. -/
def scoreExact : Int := 500

/-- Embeds `QuickFileOpenService.Scores.partial`. -/
def scorePartialBonus : Int := 250

/-- Embeds the inner `score` closure of `compareItems`.  `query` is the
already-normalized user filter captured by the closure; `str` is the
already-normalized item text.  The source's `exactMatch` and
`partialMatch` accumulator pair (here `ep.1` and `ep.2`) starts at
`(true, false)` and is folded over the query parts with `&&`/`||` exactly
as the `forEach` does. -/
def score (fz : FuzzyMatcher) (query str : String) : Int :=
  let querySplit := splitWhitespace query
  let queryJoin := String.join querySplit
  let ep := querySplit.foldl
    (fun (ep : Bool × Bool) part =>
      (ep.1 && includesStr str part, ep.2 || includesStr str part))
    (true, false)
  let fuzzyMatch := fz queryJoin str
  let matchScore : Int :=
    match fuzzyMatch with
    | none => 0
    | some .inf => scoreMax
    | some (.val n) => n
  if ep.1 then matchScore + scoreExact
  else if ep.2 then matchScore + scorePartialBonus
  else
    match fuzzyMatch with
    | none => 0
    | some _ => matchScore

/-- Embeds a candidate item as far as `compareItems` reads it: its display
label (`getLabel()`) and its URI path string (`getUri()!.path.toString()`). -/
structure Candidate where
  label : String
  uri : String
deriving DecidableEq, Repr

/-- Embeds the `member` parameter of `compareItems`. -/
inductive Member where
  | getLabel : Member
  | getUri : Member
deriving DecidableEq, Repr

/-- Embeds the tie-break chain of `compareItems` after both item strings
have been normalized: score, then filter-substring index, then length, then
reverse alphabetical order, and finally `onTie` — the value of the branch
the source reaches when `itemB.localeCompare(itemA)` is zero (the one
recursive call, or `0` when already comparing by URI). -/
def compareTail (fz : FuzzyMatcher) (query itemA itemB : String) (onTie : Int) : Int :=
  let scoreA := score fz query itemA
  let scoreB := score fz query itemB
  if scoreA = scoreB then
    let indexA := indexOfStr itemA query
    let indexB := indexOfStr itemB query
    if indexA = indexB then
      if itemA.length ≠ itemB.length then
        if itemA.length < itemB.length then -1 else 1
      else if localeCompare itemB itemA = 0 then onTie
      else localeCompare itemB itemA
    else indexA - indexB
  else scoreB - scoreA

/-- Embeds `compareItems(a, b, 'getUri')`: the comparison keyed by the URI
path string, whose final tie returns `0` (no further recursion). -/
def compareByUri (fz : FuzzyMatcher) (filter : String) (a b : Candidate) : Int :=
  compareTail fz (normalize filter) (normalize a.uri) (normalize b.uri) 0

/-- Embeds `QuickFileOpenService.compareItems`.  The source's single
recursive call `this.compareItems(a, b, 'getUri')` (reached only from the
`getLabel` comparison, and never recursing further because the `getUri`
branch returns `0` on a full tie) is the inlined `compareByUri`. -/
def compareItems (fz : FuzzyMatcher) (filter : String) (a b : Candidate) : Member → Int
  | .getUri => compareByUri fz filter a b
  | .getLabel =>
    compareTail fz (normalize filter) (normalize a.label) (normalize b.label)
      (compareByUri fz filter a b)

/-- Fuzzy matcher that never matches; used to instantiate the opaque
primitive at concrete inputs. -/
def fzNone : FuzzyMatcher :=
  fun _ _ => none

/-- Fuzzy matcher giving the label `b` a finite score of 500 and matching
nothing else; it makes the score of a label containing the filter tie with
the score of one that does not. -/
def fzC1 : FuzzyMatcher :=
  fun _ str => if str = "b" then some (.val 500) else none

/-!
Theorems about the query splitter.
-/

/-- Claim C4: the splitter converts a recognized 1-based line token to a
0-based line and an optional column token (with either `:` or `,` as the
column separator) to a 0-based column defaulting to 0:
`split("foo.ts:42")` gives filter `foo.ts` with a point range at line 41
column 0, and `split("foo.ts:42:7")` and `split("foo.ts:42,7")` both give
filter `foo.ts` with a point range at line 41 column 6. -/
theorem splitFilterAndRange_examples :
    splitFilterAndRange "foo.ts:42" =
      { filter := "foo.ts", range := some { start := ⟨41, 0⟩, stop := ⟨41, 0⟩ } } ∧
    splitFilterAndRange "foo.ts:42:7" =
      { filter := "foo.ts", range := some { start := ⟨41, 6⟩, stop := ⟨41, 6⟩ } } ∧
    splitFilterAndRange "foo.ts:42,7" =
      { filter := "foo.ts", range := some { start := ⟨41, 6⟩, stop := ⟨41, 6⟩ } } := by
  refine ⟨by decide, by decide, by decide⟩

/-- Claim C5: whenever the pattern does not match at all, or matches with an
empty line-number capture (a bare `#`, `:` or `(` with no digits), the
splitter returns the whole input as the filter with no range; being a total
function, it raises no exception. -/
theorem splitFilterAndRange_no_line (s : String)
    (h : (match execPattern s with
          | none => true
          | some (_, g1, _) => g1 == "") = true) :
    splitFilterAndRange s = { filter := s, range := none } := by
  unfold splitFilterAndRange
  rcases he : execPattern s with _ | ⟨idx, g1, g2⟩
  · rfl
  · rw [he] at h
    have hg : g1 = "" := by simpa using h
    subst hg
    rfl

/-- Witness for C5 at the spec's own example: `split("foo.ts#")` leaves the
input untouched because no digits follow the `#`. -/
theorem splitFilterAndRange_no_line_witness :
    (match execPattern "foo.ts#" with
     | none => true
     | some (_, g1, _) => g1 == "") = true ∧
    splitFilterAndRange "foo.ts#" = { filter := "foo.ts#", range := none } :=
  ⟨by decide, splitFilterAndRange_no_line "foo.ts#" (by decide)⟩

/-- Rebuilding a string from its characters gives the string back. -/
theorem mk_toList (s : String) : String.mk s.toList = s := rfl

/-- Shape of every `splitFilterAndRange` result: either the fallback value,
or a point range together with the prefix of the input before the match
index of the recognized suffix. -/
theorem splitFilterAndRange_shape (s : String) :
    splitFilterAndRange s = { filter := s, range := none } ∨
    ∃ idx g1 g2 p, execPattern s = some (idx, g1, g2) ∧
      splitFilterAndRange s =
        { filter := String.mk (s.toList.take idx),
          range := some { start := p, stop := p } } := by
  unfold splitFilterAndRange
  rcases he : execPattern s with _ | ⟨idx, g1, g2⟩
  · left; rfl
  · dsimp only
    rcases hp : parseIntDec g1 with _ | line
    · left; rfl
    · right; exact ⟨idx, g1, g2, _, rfl, rfl⟩

/-- Claim C6: for every input, the returned filter is a prefix of the input
(the whole input when no suffix is recognized and the prefix ending where
the recognized suffix starts otherwise), and any returned range is a
zero-width point, its start equal to its end. -/
theorem splitFilterAndRange_invariant (s : String) :
    (∃ n, (splitFilterAndRange s).filter = String.mk (s.toList.take n)) ∧
    (match (splitFilterAndRange s).range with
     | none => (splitFilterAndRange s).filter = s
     | some r =>
       r.start = r.stop ∧
       ∃ idx g1 g2, execPattern s = some (idx, g1, g2) ∧
         (splitFilterAndRange s).filter = String.mk (s.toList.take idx)) := by
  rcases splitFilterAndRange_shape s with h | ⟨idx, g1, g2, p, he, h⟩
  · rw [h]
    exact ⟨⟨s.toList.length, by rw [List.take_length, mk_toList]⟩, rfl⟩
  · rw [h]
    exact ⟨⟨idx, rfl⟩, rfl, idx, g1, g2, he, rfl⟩

example : splitWhitespace "" = [""] := by decide

example : splitWhitespace "a  bc" = ["a", "bc"] := by decide

example : indexOfStr "abc" "bc" = 1 := by decide

example : indexOfStr "abc" "x" = -1 := by decide

example : score fzNone "a" "a" = 500 := by decide

example : score fzNone "a" "b" = 0 := by decide

example : compareItems fzNone "a" ⟨"a", "u"⟩ ⟨"b", "v"⟩ .getLabel = -500 := by decide

example : compareItems fzNone "q" ⟨"x", "u"⟩ ⟨"x", "u"⟩ .getLabel = 0 := by decide

/-!
Helper lemmas about the comparison primitives.
-/

/-- Code-point comparison of a list with itself is `eq`. -/
theorem cmpChars_self (l : List Char) : cmpChars l l = .eq := by
  induction l with
  | nil => rfl
  | cons c cs ih => simp [cmpChars, ih]

/-- The modelled `localeCompare` of a string with itself is `0`. -/
theorem localeCompare_self (a : String) : localeCompare a a = 0 := by
  unfold localeCompare
  rw [cmpChars_self]

/-- Swapping the arguments of the code-point comparison swaps the ordering. -/
theorem cmpChars_swap (as bs : List Char) : cmpChars as bs = (cmpChars bs as).swap := by
  induction as generalizing bs with
  | nil => cases bs <;> rfl
  | cons a as ih =>
    cases bs with
    | nil => rfl
    | cons b bs =>
      simp only [cmpChars]
      by_cases h1 : a.toNat < b.toNat
      · have h2 : ¬ b.toNat < a.toNat := by omega
        simp [h1, h2, Ordering.swap]
      · by_cases h2 : b.toNat < a.toNat
        · simp [h1, h2, Ordering.swap]
        · simp only [h1, h2, if_false]
          simp [ih bs]

/-- The modelled `localeCompare` is antisymmetric in sign. -/
theorem localeCompare_antisymm (a b : String) : localeCompare a b = - localeCompare b a := by
  unfold localeCompare
  rw [cmpChars_swap]
  cases cmpChars b.toList a.toList <;> rfl

/-- The tie-break chain on two equal strings falls all the way through to
its final `onTie` value. -/
theorem compareTail_self (fz : FuzzyMatcher) (q x : String) (t : Int) :
    compareTail fz q x x t = t := by
  unfold compareTail
  simp [localeCompare_self]

/-- The tie-break chain is antisymmetric, provided the value of the final
tie is negated along with the arguments. -/
theorem compareTail_antisymm (fz : FuzzyMatcher) (q a b : String) (t : Int) :
    compareTail fz q a b t = - compareTail fz q b a (-t) := by
  have hlc : localeCompare b a = - localeCompare a b := localeCompare_antisymm b a
  simp only [compareTail]
  split_ifs <;> omega

/-- When scores tie, a strictly smaller filter-substring index makes the
tie-break chain return a negative value. -/
theorem compareTail_index_lt (fz : FuzzyMatcher) (q itemA itemB : String) (t : Int)
    (h1 : score fz q itemA = score fz q itemB)
    (h2 : indexOfStr itemA q < indexOfStr itemB q) :
    compareTail fz q itemA itemB t < 0 := by
  unfold compareTail
  rw [if_pos h1, if_neg (by omega : ¬ indexOfStr itemA q = indexOfStr itemB q)]
  omega

/-- When scores and indices tie, the tie-break chain compares lengths and
then reverse alphabetical order. -/
theorem compareTail_len_alpha (fz : FuzzyMatcher) (q itemA itemB : String) (t : Int)
    (h1 : score fz q itemA = score fz q itemB)
    (h2 : indexOfStr itemA q = indexOfStr itemB q) :
    (itemA.length < itemB.length → compareTail fz q itemA itemB t = -1) ∧
    (itemB.length < itemA.length → compareTail fz q itemA itemB t = 1) ∧
    (itemA.length = itemB.length → localeCompare itemB itemA ≠ 0 →
      compareTail fz q itemA itemB t = localeCompare itemB itemA) := by
  unfold compareTail
  rw [if_pos h1, if_pos h2]
  refine ⟨fun h3 => ?_, fun h3 => ?_, fun h3 h4 => ?_⟩
  · rw [if_pos (by omega : itemA.length ≠ itemB.length), if_pos h3]
  · rw [if_pos (by omega : itemA.length ≠ itemB.length),
      if_neg (by omega : ¬ itemA.length < itemB.length)]
  · rw [if_neg (by omega : ¬ itemA.length ≠ itemB.length), if_neg h4]

/-!
Theorems about the result ranker.
-/

/-- Counterexample to claim C1: with scores tied, the label `a` contains
the filter `a` at index 0 while the label `b` does not contain it at all
(index `-1`), yet the comparator returns `1`: the candidate whose label
contains the filter sorts *after* the one whose label does not, because
`indexA - indexB = 0 - (-1) = 1` — the `-1` sentinel compares as smaller
than every found index, not larger. -/
theorem compareItems_notFound_sorts_first_cex :
    score fzC1 (normalize "a") (normalize "a") = score fzC1 (normalize "a") (normalize "b") ∧
    indexOfStr (normalize "a") (normalize "a") = 0 ∧
    indexOfStr (normalize "b") (normalize "a") = -1 ∧
    compareItems fzC1 "a" ⟨"a", "ua"⟩ ⟨"b", "ub"⟩ .getLabel = 1 :=
  ⟨by decide, by decide, by decide, by decide⟩

/-- Claim C1 (amended): in the comparator's tie-break on equal scores, the
candidate whose normalized label has the strictly smaller `indexOf` value
for the normalized filter sorts earlier, where a label that does not
contain the filter has the value `-1` — which is smaller than every found
index, so a label that does not contain the filter sorts *before* (not
after) any label that does. -/
theorem compareItems_smaller_index_first (fz : FuzzyMatcher) (q : String) (a b : Candidate)
    (h1 : score fz (normalize q) (normalize a.label) =
      score fz (normalize q) (normalize b.label))
    (h2 : indexOfStr (normalize a.label) (normalize q) <
      indexOfStr (normalize b.label) (normalize q)) :
    compareItems fz q a b .getLabel < 0 :=
  compareTail_index_lt fz (normalize q) (normalize a.label) (normalize b.label)
    (compareByUri fz q a b) h1 h2

/-- Witness for the amended C1: labels `ab` and `ba` tie on score for the
filter `a` and contain it at indices 0 and 1; the comparator prefers `ab`. -/
theorem compareItems_smaller_index_first_witness :
    (score fzNone (normalize "a") (normalize "ab") =
      score fzNone (normalize "a") (normalize "ba")) ∧
    compareItems fzNone "a" ⟨"ab", "u1"⟩ ⟨"ba", "u2"⟩ .getLabel < 0 :=
  ⟨by decide,
   compareItems_smaller_index_first fzNone "a" ⟨"ab", "u1"⟩ ⟨"ba", "u2"⟩
     (by decide) (by decide)⟩

/-- Counterexample to claim C2: the comparator's return value is not
restricted to `{-1, 0, 1}` — on labels `a` and `b` with filter `a` it
returns the raw score difference `-500`. -/
theorem compareItems_not_sign_valued_cex :
    compareItems fzNone "a" ⟨"a", "u"⟩ ⟨"b", "v"⟩ .getLabel = -500 ∧
    ¬(compareItems fzNone "a" ⟨"a", "u"⟩ ⟨"b", "v"⟩ .getLabel = -1 ∨
      compareItems fzNone "a" ⟨"a", "u"⟩ ⟨"b", "v"⟩ .getLabel = 0 ∨
      compareItems fzNone "a" ⟨"a", "u"⟩ ⟨"b", "v"⟩ .getLabel = 1) :=
  ⟨by decide, by decide⟩

/-- Claim C2 (amended): the comparator returns an arbitrary integer rather
than a value in `{-1, 0, 1}`; only the sign carries the ordering, and the
comparator is antisymmetric in sign — `compare(a, b) = -compare(b, a)` for
every pair of candidates, every filter and either comparison key — which is
what makes it a valid sort comparator. -/
theorem compareItems_antisymm (fz : FuzzyMatcher) (q : String) (a b : Candidate) (m : Member) :
    compareItems fz q a b m = - compareItems fz q b a m := by
  have huri : compareByUri fz q a b = - compareByUri fz q b a := by
    unfold compareByUri
    rw [compareTail_antisymm]
    norm_num
  cases m with
  | getUri => exact huri
  | getLabel =>
    show compareTail fz (normalize q) (normalize a.label) (normalize b.label)
        (compareByUri fz q a b) =
      - compareTail fz (normalize q) (normalize b.label) (normalize a.label)
        (compareByUri fz q b a)
    rw [compareTail_antisymm fz (normalize q) (normalize a.label) (normalize b.label)
      (compareByUri fz q a b), huri, neg_neg]

/-- Claim C7: with equal scores and equal filter-substring indices, the
shorter normalized label sorts first (`-1`, or `1` when the first label is
the longer one); with equal lengths as well, the comparator returns
`itemB.localeCompare(itemA)`, so the alphabetically later label sorts
first. -/
theorem compareItems_length_alpha_tiebreak (fz : FuzzyMatcher) (q : String) (a b : Candidate)
    (h1 : score fz (normalize q) (normalize a.label) =
      score fz (normalize q) (normalize b.label))
    (h2 : indexOfStr (normalize a.label) (normalize q) =
      indexOfStr (normalize b.label) (normalize q)) :
    ((normalize a.label).length < (normalize b.label).length →
      compareItems fz q a b .getLabel = -1) ∧
    ((normalize b.label).length < (normalize a.label).length →
      compareItems fz q a b .getLabel = 1) ∧
    ((normalize a.label).length = (normalize b.label).length →
      localeCompare (normalize b.label) (normalize a.label) ≠ 0 →
      compareItems fz q a b .getLabel = localeCompare (normalize b.label) (normalize a.label)) :=
  compareTail_len_alpha fz (normalize q) (normalize a.label) (normalize b.label)
    (compareByUri fz q a b) h1 h2

/-- Witness for C7: labels `ab` and `abc` tie on score and index for the
filter `a`; the shorter label `ab` sorts first. -/
theorem compareItems_length_alpha_tiebreak_witness :
    (score fzNone (normalize "a") (normalize "ab") =
      score fzNone (normalize "a") (normalize "abc")) ∧
    compareItems fzNone "a" ⟨"ab", "u1"⟩ ⟨"abc", "u2"⟩ .getLabel = -1 :=
  ⟨by decide,
   (compareItems_length_alpha_tiebreak fzNone "a" ⟨"ab", "u1"⟩ ⟨"abc", "u2"⟩
     (by decide) (by decide)).1 (by decide)⟩

/-- Claim C8: the comparator is reflexive — comparing a candidate with
itself under the `label` key returns `0`, for every candidate and filter. -/
theorem compareItems_refl (fz : FuzzyMatcher) (q : String) (a : Candidate) :
    compareItems fz q a a .getLabel = 0 := by
  show compareTail fz (normalize q) (normalize a.label) (normalize a.label)
      (compareByUri fz q a a) = 0
  rw [compareTail_self]
  unfold compareByUri
  rw [compareTail_self]

/-- Claim C9: the fallback from label-based to URI-based comparison happens
at most once — when the comparison is already keyed by `uri` and every
tie-break step ties, the comparator returns `0` instead of recursing again
(first conjunct), so a pair with identical labels and identical identifiers
compares as equal (second conjunct); the comparator is a total function, so
it terminates on every input. -/
theorem compareItems_recursion_bounded (fz : FuzzyMatcher) (q : String) (a b : Candidate) :
    (normalize a.uri = normalize b.uri → compareItems fz q a b .getUri = 0) ∧
    (a.label = b.label → a.uri = b.uri → compareItems fz q a b .getLabel = 0) := by
  constructor
  · intro h
    show compareByUri fz q a b = 0
    unfold compareByUri
    rw [h, compareTail_self]
  · intro hl hu
    show compareTail fz (normalize q) (normalize a.label) (normalize b.label)
        (compareByUri fz q a b) = 0
    rw [hl, compareTail_self]
    unfold compareByUri
    rw [hu, compareTail_self]

/-- Witness for C9: a synthetic pair with identical labels and identical
identifiers compares as equal under both comparison keys. -/
theorem compareItems_recursion_bounded_witness :
    compareItems fzNone "q" ⟨"x", "u"⟩ ⟨"x", "u"⟩ .getUri = 0 ∧
    compareItems fzNone "q" ⟨"x", "u"⟩ ⟨"x", "u"⟩ .getLabel = 0 :=
  ⟨(compareItems_recursion_bounded fzNone "q" ⟨"x", "u"⟩ ⟨"x", "u"⟩).1 rfl,
   (compareItems_recursion_bounded fzNone "q" ⟨"x", "u"⟩ ⟨"x", "u"⟩).2 rfl rfl⟩

/-- Claim C3: the per-candidate score is the fuzzy contribution (with the
perfect score `Infinity` remapped to the constant 1000, and 0 when the
primitive reports no match) plus 500 when every whitespace-split filter
token is a literal substring of the label, plus 250 when at least one but
not all tokens are, and the bare fuzzy contribution otherwise. -/
theorem score_characterization (fz : FuzzyMatcher) (query str : String) :
    score fz query str =
      (match fz (String.join (splitWhitespace query)) str with
       | none => 0
       | some .inf => scoreMax
       | some (.val n) => n) +
      (if (splitWhitespace query).all (fun part => includesStr str part) then scoreExact
       else if (splitWhitespace query).any (fun part => includesStr str part) then
         scorePartialBonus
       else 0) := by
  have hfold : ∀ (l : List String) (e p : Bool),
      l.foldl (fun (ep : Bool × Bool) part =>
        (ep.1 && includesStr str part, ep.2 || includesStr str part)) (e, p) =
      (e && l.all (fun part => includesStr str part),
       p || l.any (fun part => includesStr str part)) := by
    intro l
    induction l with
    | nil => intro e p; simp
    | cons x xs ih => intro e p; simp [ih, Bool.and_assoc, Bool.or_assoc]
  simp only [score, hfold, Bool.true_and, Bool.false_or]
  rcases h : fz (String.join (splitWhitespace query)) str with _ | fs
  · by_cases hall : (splitWhitespace query).all (fun part => includesStr str part) <;>
      by_cases hany : (splitWhitespace query).any (fun part => includesStr str part) <;>
      simp [hall, hany]
  · rcases fs with _ | n <;>
      (by_cases hall : (splitWhitespace query).all (fun part => includesStr str part) <;>
       by_cases hany : (splitWhitespace query).any (fun part => includesStr str part) <;>
       simp [hall, hany])

/-- Every string contains the empty string. -/
theorem containsSub_nil (cs : List Char) : containsSub cs [] = true := by
  cases cs <;> rfl

/-- Claim C10: a filter that normalizes to the empty string splits into the
single empty token, which every label contains, so every candidate is
classified as an exact match and receives the 500-point exact bonus on top
of its fuzzy contribution; the bonuses therefore never separate two
candidates under an empty filter. -/
theorem score_empty_filter (fz : FuzzyMatcher) (filter str : String)
    (h : normalize filter = "") :
    splitWhitespace (normalize filter) = [""] ∧
    includesStr str "" = true ∧
    score fz (normalize filter) str =
      (match fz "" str with
       | none => 0
       | some .inf => scoreMax
       | some (.val n) => n) + scoreExact := by
  rw [h]
  have hsplit : splitWhitespace "" = [""] := rfl
  have hjoin : String.join [""] = "" := rfl
  have hinc : includesStr str "" = true := containsSub_nil str.toList
  refine ⟨rfl, hinc, ?_⟩
  simp [score, hsplit, hjoin, hinc]

/-- Witness for C10: the filter consisting of a single blank normalizes to
the empty string, which splits into the single empty token. -/
theorem score_empty_filter_witness :
    normalize " " = "" ∧ splitWhitespace (normalize " ") = [""] :=
  ⟨by decide, (score_empty_filter fzNone " " "hello" (by decide)).1⟩

end QuickFileOpen
